import Mathlib

/-!
# Verification of the Maestro auto-update engine (`scripts/auto_update.py`)

Shallow embedding of the `MaestroUpdater` class.  The Python code drives an
external `git` process and the filesystem; we model that environment as an
explicit state (`GitState`, `World`) with a small-step interpreter `runGit`
for exactly the git commands the script issues (per the external-interface
contract in the spec, §6).  Every method of `MaestroUpdater` is translated
to a Lean function threading that state; machine effects (which commands
were run) are recorded in a trace so that control-flow properties
("rollback was invoked", "no diff was computed") are provable.

Conventions:
* `_run_git_command` returns `(success, output)` in Python, with the output
  whitespace-stripped (`stdout.strip() or stderr.strip()`); the wrapper
  `run_git_command` below applies `String.trim` accordingly and appends the
  issued command to the trace.
* Python exceptions caught by blanket `try/except` blocks are modelled by
  explicit failure flags in the state (`available`, `networkOk`, `pullOk`,
  `backupIOFails`).
* `print`/Rich display calls have no semantic effect and are omitted.
-/

namespace AutoUpdate

/-- `UpdateStatus` enum from the source. -/
inductive UpdateStatus where
  | up_to_date
  | update_available
  | error
  | has_local_changes
deriving DecidableEq, Repr

/-- `MaestroUpdater.MAESTRO_PATHS`: managed directory prefixes. -/
def MAESTRO_PATHS : List String := ["agents/", "commands/", "scripts/", "skills/"]

/-- `MaestroUpdater.MAESTRO_FILES`: managed individual files. -/
def MAESTRO_FILES : List String := ["CHANGELOG.md", "CLAUDE.md", "Makefile"]

/-!
String helpers.  Python operates on strings as sequences of code points;
we mirror `str.strip`, `str.split`, slicing, `int(...)`/`isdigit`,
`str.startswith` as structurally recursive functions over `String.data`
(the code-point list), so that all definitions evaluate by kernel
reduction on concrete inputs.
-/

/-- Python `str.strip()`: remove leading and trailing whitespace. -/
def pyStrip (s : String) : String :=
  ⟨((s.data.dropWhile Char.isWhitespace).reverse.dropWhile Char.isWhitespace).reverse⟩

/-- Split a code-point list at every separator matching `p`
(Python `str.split(sep)` semantics: `n` separators yield `n+1` chunks). -/
def splitOnPred (p : Char → Bool) : List Char → List (List Char)
  | [] => [[]]
  | c :: rest =>
    match splitOnPred p rest with
    | [] => [[]]
    | l :: ls => if p c then [] :: l :: ls else (c :: l) :: ls

/-- Python `s.split("\n")`. -/
def pySplitNl (s : String) : List String :=
  (splitOnPred (fun c => c = '\n') s.data).map (fun cs => ⟨cs⟩)

/-- Python `s.split()[0]` (first whitespace-separated token), totalized
with `""` for the unreachable all-whitespace case. -/
def firstToken (s : String) : String :=
  (((splitOnPred Char.isWhitespace s.data).filter (fun cs => cs ≠ [])).map
    (fun cs => (⟨cs⟩ : String))).headD ""

/-- Python `s.startswith(p)`. -/
def pyStartsWith (s p : String) : Bool := p.data.isPrefixOf s.data

/-- Python slicing `s[n:]` (by code point). -/
def pyDrop (s : String) (n : Nat) : String := ⟨s.data.drop n⟩

/-- Python slicing `s[:n]` (by code point). -/
def pyTake (s : String) (n : Nat) : String := ⟨s.data.take n⟩

/-- Python `int(s) if s.isdigit() else` failure. -/
def pyToNat? (s : String) : Option Nat :=
  if s.data ≠ [] ∧ s.data.all Char.isDigit then
    some (s.data.foldl (fun n c => n * 10 + (c.toNat - 48)) 0)
  else none

/-- Python `s.rstrip("/")`. -/
def rstripSlash (s : String) : String :=
  ⟨(s.data.reverse.dropWhile (fun c => c = '/')).reverse⟩

/-- Decimal rendering of a `Nat` (model of git's numeric output). -/
def natToStr (n : Nat) : String :=
  ⟨(Nat.toDigits 10 n)⟩

/-- Index of an element in a list (length when absent); used to model the
commit-distance `rev-list --count` computes on a linear history. -/
def idxOf (a : String) : List String → Nat
  | [] => 0
  | b :: l => if b = a then 0 else idxOf a l + 1

/-- Model of the external git repository the script operates on.
`commits` is the (linear) history, newest first; `head` the local checkout;
`originMain` the remote-tracking ref `origin/main`; `remoteHead` the actual
remote head (what `fetch`/`ls-remote` see).  `worktree` holds the porcelain
status lines of the working tree; `stash` the stash stack.  `available`,
`networkOk` and `pullOk` model external failure of the git binary, the
network, and the rebase-pull.  `remoteChanged`/`remoteDeleted` are the
name-only diff listings between `HEAD` and `origin/main`. -/
structure GitState where
  commits : List String
  head : String
  originMain : String
  remoteHead : String
  worktree : List String
  stash : List (List String)
  localTag : Option String
  remoteTag : Option String
  available : Bool
  networkOk : Bool
  pullOk : Bool
  remoteChanged : List String
  remoteDeleted : List String
deriving DecidableEq, Repr

/-- A `GitState` together with the trace of every git command issued so
far through `_run_git_command` (used to state control-flow properties:
which external commands an operation runs). -/
structure GitM where
  repo : GitState
  trace : List (List String)
deriving DecidableEq, Repr

/-- Commits the local head is behind `origin/main` (linear-history model). -/
def behindNat (g : GitState) : Nat :=
  idxOf g.head g.commits - idxOf g.originMain g.commits

/-- A porcelain status line for an untracked file starts with `??`. -/
def isUntrackedLine (l : String) : Bool := pyStartsWith l "??"

/-- Path part of an untracked porcelain line (`?? path`). -/
def untrackedPath (l : String) : String := pyDrop l 3

/-- Whether git pathspec `p` (a directory name) matches file `f`. -/
def pathspecMatch (p f : String) : Bool := f = p || pyStartsWith f (p ++ "/")

/-- Join status/diff lines into one process-output string. -/
def joinLines : List String → String
  | [] => ""
  | [l] => l
  | l :: ls => l ++ "\n" ++ joinLines ls

/-- Effect of `git stash save`: tracked working-tree changes move onto
the stash stack; untracked files remain; a clean tree is a no-op. -/
def stashEffect (g : GitState) : GitState :=
  if g.worktree.filter (fun l => !isUntrackedLine l) = [] then g
  else
    { g with
      worktree := g.worktree.filter (fun l => isUntrackedLine l)
      stash := g.worktree.filter (fun l => !isUntrackedLine l) :: g.stash }

/-- Interpreter for the git commands issued by `auto_update.py`, assuming
the git binary works (see `runGit` for the failure wrapper).  Returns
`(exit-ok, raw output, next repository state)`. -/
def runGitAvail (g : GitState) (args : List String) : Bool × String × GitState :=
  match args with
    | ["rev-parse", "HEAD"] => (true, g.head, g)
    | ["ls-remote", "origin", "HEAD"] =>
        if g.networkOk then (true, g.remoteHead ++ "\tHEAD", g)
        else (false, "network error", g)
    | ["status", "--porcelain"] => (true, joinLines g.worktree, g)
    | ["fetch", "origin"] =>
        if g.networkOk then (true, "", { g with originMain := g.remoteHead })
        else (false, "network error", g)
    | ["rev-list", "--count", r] =>
        if r = "HEAD..origin/main" then (true, natToStr (behindNat g), g)
        else (false, "bad range", g)
    | ["diff", "--name-only", "HEAD", "origin/main"] =>
        (true, joinLines g.remoteChanged, g)
    | ["diff", "--name-only", "--diff-filter=D", "HEAD", "origin/main"] =>
        (true, joinLines g.remoteDeleted, g)
    | ["describe", "--tags", "--abbrev=0"] =>
        match g.localTag with
        | some t => (true, t, g)
        | none => (false, "fatal: no tags", g)
    | ["describe", "--tags", "--abbrev=0", "origin/main"] =>
        match g.remoteTag with
        | some t => (true, t, g)
        | none => (false, "fatal: no tags", g)
    | "stash" :: "save" :: _ => (true, "stash", stashEffect g)
    | ["reset", "--hard", rev] =>
        if rev = "HEAD" then
          (true, "HEAD is now", { g with worktree := g.worktree.filter isUntrackedLine })
        else if rev ∈ g.commits then
          (true, "HEAD is now",
            { g with head := rev, worktree := g.worktree.filter isUntrackedLine })
        else (false, "unknown revision", g)
    | ["clean", "-fd", p] =>
        (true, "",
          { g with worktree :=
              g.worktree.filter (fun l => !(isUntrackedLine l && pathspecMatch p (untrackedPath l))) })
    | ["pull", "--rebase", "origin", "main"] =>
        if g.networkOk = false then (false, "network error", g)
        else if g.pullOk then
          (true, "Updated",
            { g with head := g.originMain, remoteChanged := [], remoteDeleted := [] })
        else (false, "pull failed", g)
    | _ => (false, "unsupported", g)

/-- Interpreter for the git commands issued by `auto_update.py`
(the version-control process interface of spec §6): every command fails
when the git binary is unavailable. -/
def runGit (g : GitState) (args : List String) : Bool × String × GitState :=
  if g.available = false then (false, "git unavailable", g)
  else runGitAvail g args

/-- `MaestroUpdater._run_git_command`: runs git, strips the captured output
(`result.stdout.strip() or result.stderr.strip()`), and returns
`(success, output)`; the issued command is recorded in the trace. -/
def run_git_command (g : GitM) (args : List String) : Bool × String × GitM :=
  let r := runGit g.repo args
  (r.1, pyStrip r.2.1, ⟨r.2.2, g.trace ++ [args]⟩)

/-- `MaestroUpdater._get_current_commit`: head id, or the sentinel
`"unknown"` when the command fails. -/
def get_current_commit (g : GitM) : String × GitM :=
  let r := run_git_command g ["rev-parse", "HEAD"]
  (if r.1 then r.2.1 else "unknown", r.2.2)

/-- `MaestroUpdater._get_remote_commit`. -/
def get_remote_commit (g : GitM) : String × GitM :=
  let r := run_git_command g ["ls-remote", "origin", "HEAD"]
  (if r.1 && (r.2.1 != "") then firstToken r.2.1 else "unknown", r.2.2)

/-- `MaestroUpdater._get_local_changes`: stripped, non-blank porcelain
status lines (raw strings). -/
def get_local_changes (g : GitM) : List String × GitM :=
  let r := run_git_command g ["status", "--porcelain"]
  (if r.1 && (r.2.1 != "") then
      ((pySplitNl r.2.1).map pyStrip).filter (fun l => l != "")
    else [], r.2.2)

/-- The allow-list predicate of `MaestroUpdater._filter_maestro_files`:
`f.startswith(MAESTRO_PATHS) or any(f == mf or f.startswith(mf) for mf in MAESTRO_FILES)`. -/
def is_maestro_file (f : String) : Bool :=
  MAESTRO_PATHS.any (fun p => pyStartsWith f p) ||
  MAESTRO_FILES.any (fun mf => f == mf || pyStartsWith f mf)

/-- `MaestroUpdater._filter_maestro_files`. -/
def filter_maestro_files (files : List String) : List String :=
  files.filter is_maestro_file

/-- `behind = int(behind_output) if success and behind_output.isdigit()
else 0` from `_get_remote_changes`. -/
def parseBehind (ok : Bool) (out : String) : Nat :=
  if ok then (pyToNat? out).getD 0 else 0

/-- `MaestroUpdater._get_remote_changes`: fetch, count commits behind,
short-circuit on 0, else name-only diffs filtered to Maestro files.
Returns `((changed, deleted, behind), state)`. -/
def get_remote_changes (g : GitM) : (List String × List String × Nat) × GitM :=
  let f := run_git_command g ["fetch", "origin"]
  let b := run_git_command f.2.2 ["rev-list", "--count", "HEAD..origin/main"]
  let behind := parseBehind b.1 b.2.1
  if behind = 0 then (([], [], 0), b.2.2)
  else
    let c := run_git_command b.2.2 ["diff", "--name-only", "HEAD", "origin/main"]
    let changed := if c.1 && (c.2.1 != "") then pySplitNl c.2.1 else []
    let d := run_git_command c.2.2
      ["diff", "--name-only", "--diff-filter=D", "HEAD", "origin/main"]
    let deleted := if d.1 && (d.2.1 != "") then pySplitNl d.2.1 else []
    ((filter_maestro_files changed, filter_maestro_files deleted, behind), d.2.2)

/-- `MaestroUpdater._get_version_info`: tag if available, else 8-char
commit prefix, for local and remote. -/
def get_version_info (g : GitM) : (String × String) × GitM :=
  let t1 := run_git_command g ["describe", "--tags", "--abbrev=0"]
  let cur := if t1.1 then (t1.2.1, t1.2.2)
    else
      let c := get_current_commit t1.2.2
      (pyTake c.1 8, c.2)
  let t2 := run_git_command cur.2 ["describe", "--tags", "--abbrev=0", "origin/main"]
  let rem := if t2.1 then (t2.2.1, t2.2.2)
    else
      let c := get_remote_commit t2.2.2
      (pyTake c.1 8, c.2)
  ((cur.1, rem.1), rem.2)

/-- `UpdateInfo` dataclass. -/
structure UpdateInfo where
  current_commit : String
  remote_commit : String
  current_version : String
  remote_version : String
  local_changes : List String
  remote_changes : List String
  deleted_files : List String
  status : UpdateStatus
  behind_by : Nat
deriving DecidableEq, Repr

/-- `MaestroUpdater.check_for_updates`: probes in source order
(current commit, remote commit, versions, local changes, remote changes)
and derives the status with the precedence of lines 613-617. -/
def check_for_updates (g : GitM) : UpdateInfo × GitM :=
  let cc := get_current_commit g
  let rc := get_remote_commit cc.2
  let vi := get_version_info rc.2
  let lc := get_local_changes vi.2
  let rch := get_remote_changes lc.2
  let status :=
    if rch.1.2.2 > 0 then UpdateStatus.update_available
    else if lc.1 ≠ [] then UpdateStatus.has_local_changes
    else UpdateStatus.up_to_date
  ({ current_commit := cc.1
     remote_commit := rc.1
     current_version := vi.1.1
     remote_version := vi.1.2
     local_changes := lc.1
     remote_changes := rch.1.1
     deleted_files := rch.1.2.1
     status := status
     behind_by := rch.1.2.2 }, rch.2)

/-- Exit code of the `check`/`status` CLI branch of `main`:
`sys.exit(0 if info.status != UpdateStatus.ERROR else 1)`. -/
def main_check_exit (g : GitM) : Nat :=
  if (check_for_updates g).1.status ≠ UpdateStatus.error then 0 else 1

/-- The metadata record `_create_backup` writes to
`.maestro_update_metadata.json` (`{timestamp, commit, backup_path}`). -/
structure BackupRecord where
  timestamp : String
  commit : String
  backup_path : String
deriving DecidableEq, Repr

/-- Answers of the interactive operator: the `Confirm.ask("How would you
like to proceed?")` answer, the `Prompt.ask` resolution choice
(`stash`/`commit`/`discard`), and the `Confirm.ask("Continue with
deletion?")` answer. -/
structure UserInput where
  proceedResolve : Bool
  choice : String
  proceedDeletion : Bool
deriving DecidableEq, Repr

/-- Combined state of the repository, the backup root, the metadata file,
the user's `~/.claude` consumer directory (a map from relative path to
contents) and the notification file.  `repoFiles` lists the repository's
working-tree files for the consumer sync; `backups` the existing
timestamped backup snapshot directories (identified by timestamp);
`now` the timestamp `datetime.now().strftime(...)` would produce;
`backupIOFails` models an I/O exception inside `_create_backup`'s
`try` block. -/
structure World where
  git : GitM
  backups : List String
  metadata : Option BackupRecord
  userDirExists : Bool
  userFiles : String → Option String
  repoFiles : String → Option String
  notificationWritten : Bool
  scriptsDirExists : Bool
  settingsExists : Bool
  now : String
  backupIOFails : Bool

/-- `shutil.copy2`-style write into a path-to-contents map. -/
def copyFileTo (m : String → Option String) (path content : String) :
    String → Option String :=
  fun q => if q = path then some content else m q

/-- `Path.unlink`-style removal from a path-to-contents map. -/
def removeFileFrom (m : String → Option String) (path : String) :
    String → Option String :=
  fun q => if q = path then none else m q

/-- `MaestroUpdater._create_backup`: create `backup_root/<timestamp>/`,
copy the scripts subtree and the settings file into it (contents of the
snapshot are a frame effect; the snapshot's existence is what `_rollback`
consults), and write the metadata record with
`commit := self._get_current_commit()`.  An I/O exception anywhere in the
`try` block returns `False`. -/
def create_backup (w : World) : Bool × World :=
  if w.backupIOFails then (false, w)
  else
    let ts := w.now
    let cc := get_current_commit w.git
    (true,
      { w with
        git := cc.2
        backups := ts :: w.backups
        metadata := some { timestamp := ts, commit := cc.1, backup_path := ts } })

/-- `MaestroUpdater._rollback`: fail if the metadata file is absent or the
recorded backup path no longer exists; otherwise hard-reset to the
recorded commit (fail if the reset fails) and restore the scripts subtree
and settings file from the snapshot (frame effects). -/
def rollback (w : World) : Bool × World :=
  match w.metadata with
  | none => (false, w)
  | some m =>
    if m.backup_path ∈ w.backups then
      let r := run_git_command w.git ["reset", "--hard", m.commit]
      if r.1 then (true, { w with git := r.2.2 })
      else (false, { w with git := r.2.2 })
    else (false, w)

/-- `MaestroUpdater._handle_local_changes` (interactive Rich path):
empty list or `force` proceed immediately; a declined confirmation aborts;
`stash` runs `git stash save <label>` and proceeds iff it succeeded;
`commit` is a deliberate bail-out; `discard` hard-resets and then cleans
untracked files under each managed prefix, proceeding iff the reset
succeeded; any other choice aborts. -/
def handle_local_changes (g : GitM) (local_changes : List String)
    (force : Bool) (ui : UserInput) : Bool × GitM :=
  if local_changes = [] then (true, g)
  else if force then (true, g)
  else if ui.proceedResolve = false then (false, g)
  else if ui.choice = "stash" then
    let r := run_git_command g ["stash", "save", "maestro_auto_update_timestamp"]
    (r.1, r.2.2)
  else if ui.choice = "commit" then (false, g)
  else if ui.choice = "discard" then
    let r := run_git_command g ["reset", "--hard", "HEAD"]
    let g2 := MAESTRO_PATHS.foldl
      (fun gg p => (run_git_command gg ["clean", "-fd", rstripSlash p]).2.2) r.2.2
    (r.1, g2)
  else (false, g)

/-- `MaestroUpdater._perform_update`: rebase-pull (abort on failure), then
clean deleted files under each managed prefix; the reinstall hook's exit
code is only reported, never acted on (no modeled effect). -/
def perform_update (w : World) : Bool × World :=
  let p := run_git_command w.git ["pull", "--rebase", "origin", "main"]
  if p.1 = false then (false, { w with git := p.2.2 })
  else
    let g2 := MAESTRO_PATHS.foldl
      (fun gg q => (run_git_command gg ["clean", "-fd", rstripSlash q]).2.2) p.2.2
    (true, { w with git := g2 })

/-- `MaestroUpdater._sync_to_user_claude_dir`: skip when the consumer
directory does not exist; copy each changed file that exists in the repo;
remove each deleted file that exists in the consumer directory (the
best-effort empty-parent pruning has no effect in a path-to-contents
model). -/
def sync_to_user_claude_dir (w : World) (info : UpdateInfo) : World :=
  if w.userDirExists = false then w
  else
    let uf1 := info.remote_changes.foldl
      (fun m rel =>
        match w.repoFiles rel with
        | some c => copyFileTo m rel c
        | none => m) w.userFiles
    let uf2 := info.deleted_files.foldl
      (fun m rel =>
        match m rel with
        | some _ => removeFileFrom m rel
        | none => m) uf1
    { w with userFiles := uf2 }

/-- `MaestroUpdater._create_update_notification`: writes
`<cwd>/update_notification.txt` (content is presentation-only). -/
def create_update_notification (w : World) : World :=
  { w with notificationWritten := true }

/-- `MaestroUpdater.update`: probe, early-return when up to date, resolve
local changes (abort on failure/cancel), confirm destructive deletions
(abort on decline), back up (warn-only on failure), perform the update
(rollback and fail on failure), then sync the consumer directory and
write the notification. -/
def update (w : World) (force silent : Bool) (ui : UserInput) : Bool × World :=
  let ck := check_for_updates w.git
  let info := ck.1
  let w1 := { w with git := ck.2 }
  if info.status = UpdateStatus.up_to_date then (true, w1)
  else
    let h := handle_local_changes w1.git info.local_changes force ui
    let w2 := { w1 with git := h.2 }
    if h.1 = false then (false, w2)
    else if info.deleted_files ≠ [] ∧ force = false ∧ silent = false ∧
        ui.proceedDeletion = false then
      (false, w2)
    else
      let b := create_backup w2
      let p := perform_update b.2
      if p.1 = false then
        let rb := rollback p.2
        (false, rb.2)
      else
        let w5 := sync_to_user_claude_dir p.2 info
        let w6 := create_update_notification w5
        (true, w6)

/-!
Mirror-sync model for `sync_all` (C7, C10).  `sync_all` never consults
git: it walks the repository working tree and copies into the consumer
directory.  We model the repository as a finite listing of
`(relative path, contents)` pairs and the consumer directory as a map
from relative path to contents.
-/

/-- `Path.exists` / file read on the repository listing. -/
def lookupFile (repo : List (String × String)) (f : String) : Option String :=
  (repo.find? (fun pc => pc.1 = f)).map (fun pc => pc.2)

/-- `MaestroUpdater.sync_all`: copy every file under each managed
directory prefix, then each managed individual file that exists, counting
copies; `deleted_count` is initialized to 0 and never incremented.
Returns `(synced_count, deleted_count, consumer')`; the two counts are
exactly what `_create_sync_notification` receives.  (A managed source
directory with no files contributes nothing, matching the
`src_dir.exists()` guard; the notification file itself lives in the
user's current working directory, outside the consumer tree.) -/
def sync_all (repo : List (String × String)) (consumer : String → Option String) :
    Nat × Nat × (String → Option String) :=
  let deleted_count := 0
  let s1 := MAESTRO_PATHS.foldl
    (fun (acc : Nat × (String → Option String)) d =>
      repo.foldl
        (fun (acc2 : Nat × (String → Option String)) pc =>
          if pyStartsWith pc.1 d then (acc2.1 + 1, copyFileTo acc2.2 pc.1 pc.2)
          else acc2)
        acc)
    (0, consumer)
  let s2 := MAESTRO_FILES.foldl
    (fun (acc : Nat × (String → Option String)) f =>
      match lookupFile repo f with
      | some c => (acc.1 + 1, copyFileTo acc.2 f c)
      | none => acc)
    s1
  (s2.1, deleted_count, s2.2)

/-- Specification-side typed parser for working-tree status lines,
following the spec's `LocalModification` data model: an entry is
`{path, kind ∈ {Modified, Added, Deleted, Untracked}}` with the status
codes named by the source's display table (`"M", "A", "D", "??"`);
any other line is unparseable. -/
inductive ModKind where
  | modified
  | added
  | deleted
  | untracked
deriving DecidableEq, Repr

/-- Specification-side parse of one status line (see `ModKind`): the first
whitespace-separated token must be one of the four status codes and a
non-empty path must follow; otherwise the line is unparseable. -/
def parseLocalModification (line : String) : Option (ModKind × String) :=
  let tok := firstToken line
  let path := pyStrip (pyDrop line tok.length)
  let kind : Option ModKind :=
    if tok = "M" then some ModKind.modified
    else if tok = "A" then some ModKind.added
    else if tok = "D" then some ModKind.deleted
    else if tok = "??" then some ModKind.untracked
    else none
  match kind with
  | some k => if path ≠ "" then some (k, path) else none
  | none => none

/-- The raw status listing `git status --porcelain` hands to
`_get_local_changes` in this model, split into lines after the
whole-output strip of `_run_git_command`. -/
def statusLines (g : GitM) : List String :=
  pySplitNl (pyStrip (joinLines g.repo.worktree))

/-!
## Write-list abstraction for the mirror sync

`sync_all`'s copies, written out as an ordered list of `(path, contents)`
writes; `sync_all` is proved equal to applying this write list (see
`sync_all_spec`), from which idempotence and the no-deletion frame
property follow.
-/

/-- The files `sync_all` copies while walking one managed directory
prefix (in repository-listing order). -/
def dirWrites (repo : List (String × String)) (d : String) :
    List (String × String) :=
  repo.filter (fun pc => pyStartsWith pc.1 d)

/-- The managed individual files `sync_all` copies (those present in the
repository). -/
def fileWrites (repo : List (String × String)) : List (String × String) :=
  MAESTRO_FILES.filterMap (fun f => (lookupFile repo f).map (fun c => (f, c)))

/-- Every `(path, contents)` write `sync_all` performs, in order. -/
def syncWrites (repo : List (String × String)) : List (String × String) :=
  (MAESTRO_PATHS.flatMap (fun d => dirWrites repo d)) ++ fileWrites repo

/-- Apply a list of writes to a consumer map, in order. -/
def applyWrites (ws : List (String × String)) (m : String → Option String) :
    String → Option String :=
  ws.foldl (fun mm pc => copyFileTo mm pc.1 pc.2) m

/-!
## Concrete states for witnesses and counterexamples
-/

/-- A concrete repository listing for the sync witnesses: one managed
directory file, one unmanaged file, one managed individual file. -/
def repoW : List (String × String) :=
  [("agents/a.md", "agent A"), ("notes.txt", "notes"), ("CLAUDE.md", "claude")]

/-- A concrete consumer directory holding one pre-existing user file. -/
def consW : String → Option String :=
  fun q => if q = "user.txt" then some "user data" else none

/-- A healthy repository two commits behind `origin/main`, with one
locally modified file and one upstream-deleted managed file. -/
def gBase : GitState :=
  { commits := ["c3", "c2", "c1"]
    head := "c1"
    originMain := "c3"
    remoteHead := "c3"
    worktree := [" M CLAUDE.md"]
    stash := []
    localTag := some "v1.0"
    remoteTag := some "v2.0"
    available := true
    networkOk := true
    pullOk := true
    remoteChanged := ["skills/new.md", "README.md"]
    remoteDeleted := ["skills/old.md"] }

/-- `gBase` with an empty command trace. -/
def gPrec : GitM := { repo := gBase, trace := [] }

/-- A state in which every git command fails (e.g. the git binary is
unavailable): the probe degrades to sentinel values everywhere. -/
def gAllFail : GitM :=
  { repo := { gBase with available := false }, trace := [] }

/-- An up-to-date repository: local head already at `origin/main`,
clean working tree. -/
def gUpToDate : GitM :=
  { repo := { gBase with head := "c3", worktree := [] }, trace := [] }

/-- A repository whose status listing contains a line no typed
status-grammar accepts. -/
def gBadStatus : GitM :=
  { repo := { gBase with worktree := ["@@@garbage"] }, trace := [] }

/-- A well-formed world: healthy repository from `gPrec`, no prior
backups or metadata, empty consumer directory. -/
def wBase : World :=
  { git := gPrec
    backups := []
    metadata := none
    userDirExists := true
    userFiles := fun _ => none
    repoFiles := fun _ => none
    notificationWritten := false
    scriptsDirExists := true
    settingsExists := false
    now := "20260101_120000"
    backupIOFails := false }

/-- Interactive answers that accept every prompt (defaults). -/
def uiAccept : UserInput :=
  { proceedResolve := true, choice := "stash", proceedDeletion := true }

/-- A world whose repository is behind but whose rebase-pull fails
(and which has no backup metadata, so the triggered rollback itself
fails too). -/
def wPullFail : World :=
  { wBase with
    git := { repo := { gBase with worktree := [], remoteDeleted := [], pullOk := false },
             trace := [] } }

/-- Operator answers that accept the resolution prompt, choose `stash`,
and decline the destructive-deletion confirmation. -/
def uiDeclineDeletion : UserInput :=
  { proceedResolve := true, choice := "stash", proceedDeletion := false }

/-- Operator answers that decline the resolution prompt outright. -/
def uiDeclineResolve : UserInput :=
  { proceedResolve := false, choice := "stash", proceedDeletion := true }

/-!
## Helper lemmas
-/

theorem run_git_command_trace (g : GitM) (args : List String) :
    ((run_git_command g args).2.2).trace = g.trace ++ [args] := rfl

/-!
## C3 — status precedence in `check_for_updates`
-/

/-- C3: for every probe, if `commitsBehind > 0` then `check_for_updates`
returns `UPDATE_AVAILABLE` (even when local modifications are non-empty),
and `HAS_LOCAL_CHANGES` is returned only when `commitsBehind = 0` and
local modifications exist. -/
theorem checkForUpdates_status_precedence (g : GitM) :
    (0 < (check_for_updates g).1.behind_by →
      (check_for_updates g).1.status = UpdateStatus.update_available) ∧
    ((check_for_updates g).1.status = UpdateStatus.has_local_changes →
      (check_for_updates g).1.behind_by = 0 ∧
        (check_for_updates g).1.local_changes ≠ []) := by
  unfold check_for_updates
  dsimp only
  constructor
  · intro h
    rw [if_pos h]
  · intro h
    split at h
    · exact absurd h (by decide)
    · split at h
      · next hb hl => exact ⟨by omega, hl⟩
      · exact absurd h (by decide)

/-- Witness for C3: a repository 2 commits behind with a non-empty local
modification list yields `UPDATE_AVAILABLE`, never `HAS_LOCAL_CHANGES`. -/
theorem checkForUpdates_status_precedence_witness :
    (check_for_updates gPrec).1.behind_by = 2 ∧
    (check_for_updates gPrec).1.local_changes ≠ [] ∧
    (check_for_updates gPrec).1.status = UpdateStatus.update_available :=
  ⟨by decide, by decide, (checkForUpdates_status_precedence gPrec).1 (by decide)⟩

/-!
## C4 — the managed-path filter and its application to the change set
-/

/-- C4: `_filter_maestro_files` returns a subset of its input in which
every element matches the allow-list predicate (managed directory prefix,
or managed filename exactly or as a prefix); every non-matching input
path is excluded; and both the changed and deleted lists computed by
`_get_remote_changes` satisfy the predicate (they are passed through the
filter). -/
theorem filterMaestroFiles_allowlist (files : List String) (g : GitM) :
    (∀ f ∈ filter_maestro_files files, f ∈ files ∧ is_maestro_file f = true) ∧
    (∀ f ∈ files, is_maestro_file f = false → f ∉ filter_maestro_files files) ∧
    (∀ f ∈ (get_remote_changes g).1.1, is_maestro_file f = true) ∧
    (∀ f ∈ (get_remote_changes g).1.2.1, is_maestro_file f = true) := by
  refine ⟨?_, ?_, ?_, ?_⟩
  · intro f hf
    rw [filter_maestro_files, List.mem_filter] at hf
    exact hf
  · intro f _ hno hmem
    rw [filter_maestro_files, List.mem_filter] at hmem
    rw [hno] at hmem
    exact absurd hmem.2 (by simp)
  · intro f hf
    unfold get_remote_changes at hf
    dsimp only at hf
    split at hf
    · exact absurd hf (by simp)
    · rw [filter_maestro_files, List.mem_filter] at hf
      exact hf.2
  · intro f hf
    unfold get_remote_changes at hf
    dsimp only at hf
    split at hf
    · exact absurd hf (by simp)
    · dsimp only at hf
      rw [filter_maestro_files, List.mem_filter] at hf
      exact hf.2

/-- Witness for C4: concrete allow-listed and out-of-list paths, and the
concrete change set of `gPrec` (whose raw diff contains the unmanaged
`README.md`, which the filter drops). -/
theorem filterMaestroFiles_allowlist_witness :
    ("skills/new.md" ∈ ["skills/new.md", "README.md"] ∧
      is_maestro_file "skills/new.md" = true) ∧
    "README.md" ∉ filter_maestro_files ["skills/new.md", "README.md"] ∧
    is_maestro_file "skills/old.md" = true :=
  ⟨(filterMaestroFiles_allowlist ["skills/new.md", "README.md"] gPrec).1
      "skills/new.md" (by decide),
   (filterMaestroFiles_allowlist ["skills/new.md", "README.md"] gPrec).2.1
      "README.md" (by decide) (by decide),
   (filterMaestroFiles_allowlist [] gPrec).2.2.2 "skills/old.md" (by decide)⟩

/-!
## C5 — change-set short-circuit when not behind
-/

/-- C5: whenever the commits-behind count computed by
`_get_remote_changes` is 0, it returns empty changed and deleted lists,
and the only git commands it has issued are the fetch and the behind
count — no `diff` is ever run. -/
theorem getRemoteChanges_shortCircuit (g : GitM)
    (h : (get_remote_changes g).1.2.2 = 0) :
    (get_remote_changes g).1.1 = [] ∧ (get_remote_changes g).1.2.1 = [] ∧
    ((get_remote_changes g).2).trace =
      g.trace ++ [["fetch", "origin"], ["rev-list", "--count", "HEAD..origin/main"]] := by
  unfold get_remote_changes at h ⊢
  dsimp only at h ⊢
  split at h
  · next hb =>
    rw [if_pos hb]
    refine ⟨rfl, rfl, ?_⟩
    rw [run_git_command_trace, run_git_command_trace]
    simp
  · next hb =>
    dsimp only at h
    exact absurd h hb

/-- Witness for C5: an up-to-date repository (head equals `origin/main`)
short-circuits with empty lists and a diff-free trace. -/
theorem getRemoteChanges_shortCircuit_witness :
    (get_remote_changes gUpToDate).1.2.2 = 0 ∧
    (get_remote_changes gUpToDate).1.1 = [] ∧
    ((get_remote_changes gUpToDate).2).trace =
      [["fetch", "origin"], ["rev-list", "--count", "HEAD..origin/main"]] :=
  ⟨by decide, (getRemoteChanges_shortCircuit gUpToDate (by decide)).1,
    ((getRemoteChanges_shortCircuit gUpToDate (by decide)).2.2).trans (by decide)⟩

/-!
## C9 — exit code of the `check` command (corrected)
-/

/-- C9 counterexample: with every git command failing (the quoted probe
failure), the probe degrades to sentinel values (`"unknown"` commits,
behind = 0), `check_for_updates` reports `UP_TO_DATE` — never `ERROR` —
and the `check` command exits 0, not 1 as the claim requires. -/
theorem check_exit_probe_failure_cex :
    (check_for_updates gAllFail).1.current_commit = "unknown" ∧
    (check_for_updates gAllFail).1.remote_commit = "unknown" ∧
    (check_for_updates gAllFail).1.status = UpdateStatus.up_to_date ∧
    main_check_exit gAllFail ≠ 1 := by decide

/-- C9 amended: the `check`/`status` command exits 1 exactly when the
probe reports status `ERROR`; but `check_for_updates` never produces
`ERROR` (probe failures fail soft into sentinel values), so the command
always exits 0. -/
theorem check_exit_always_zero (g : GitM) :
    (check_for_updates g).1.status ≠ UpdateStatus.error ∧
    main_check_exit g = 0 := by
  have hs : (check_for_updates g).1.status ≠ UpdateStatus.error := by
    unfold check_for_updates
    dsimp only
    split
    · decide
    · split
      · decide
      · decide
  exact ⟨hs, by rw [main_check_exit, if_pos hs]⟩

/-!
## C8 — `_get_local_changes` returns raw lines (corrected)
-/

/-- C8 counterexample: `_get_local_changes` keeps the unparseable status
line `"@@@garbage"` in its result instead of dropping it — the entries
are raw strings, not typed `{path, kind}` records, and no parse-based
dropping happens. -/
theorem getLocalChanges_unparseable_kept_cex :
    "@@@garbage" ∈ (get_local_changes gBadStatus).1 ∧
    parseLocalModification "@@@garbage" = none := by decide

/-- C8 amended: `_get_local_changes` returns the status listing's lines
as raw strings, whitespace-stripped; the only lines dropped are blank
ones — every non-blank line is kept verbatim, parseable or not (typed
classification happens only at display time). -/
theorem getLocalChanges_keeps_raw_lines (g : GitM) (hav : g.repo.available = true)
    (l : String) (hl : l ∈ statusLines g) (hne : pyStrip l ≠ "") :
    pyStrip l ∈ (get_local_changes g).1 := by
  have hrun : runGit g.repo ["status", "--porcelain"] =
      (true, joinLines g.repo.worktree, g.repo) := by
    unfold runGit
    rw [hav]
    rfl
  unfold get_local_changes run_git_command
  rw [hrun]
  dsimp only
  by_cases ho : pyStrip (joinLines g.repo.worktree) = ""
  · unfold statusLines at hl
    rw [ho] at hl
    have hl' : l = "" := by
      have : pySplitNl "" = [""] := by decide
      rw [this] at hl
      simpa using hl
    rw [hl'] at hne
    exact absurd (by decide : pyStrip "" = "") hne
  · rw [if_pos (by simp [ho])]
    exact List.mem_filter.mpr ⟨List.mem_map_of_mem pyStrip hl, by simpa using hne⟩

/-- Witness for C8 (amended): a healthy status listing with the line
`" M notes.txt"` yields the raw stripped entry `"M notes.txt"`. -/
theorem getLocalChanges_keeps_raw_lines_witness :
    pyStrip "M notes.txt" ∈ (get_local_changes
      ({ repo := { gBase with worktree := [" M notes.txt"] }, trace := [] } : GitM)).1 :=
  getLocalChanges_keeps_raw_lines
    { repo := { gBase with worktree := [" M notes.txt"] }, trace := [] }
    rfl "M notes.txt" (by decide) (by decide)

/-!
## C1 — backup/rollback round-trip
-/

/-- Helper: when the metadata record exists, its backup path exists, and
the hard reset to the recorded commit succeeds, `_rollback` returns true
and its only state change is the reset's effect (plus the restore frame
effects). -/
theorem rollback_success (w : World) (m : BackupRecord)
    (hmd : w.metadata = some m)
    (hbp : m.backup_path ∈ w.backups)
    (hok : (runGit w.git.repo ["reset", "--hard", m.commit]).1 = true) :
    rollback w = (true,
      { w with git := ⟨(runGit w.git.repo ["reset", "--hard", m.commit]).2.2,
                       w.git.trace ++ [["reset", "--hard", m.commit]]⟩ }) := by
  unfold rollback run_git_command
  rw [hmd]
  dsimp only
  rw [if_pos hbp]
  rw [if_pos hok]

/-- C1: when `_create_backup` succeeds (no I/O failure) in a working
repository (git available, head a whitespace-free commit of the
history), it records the current commit `C` in the metadata record, and
a subsequent `_rollback` loads that record, hard-resets the repository
head to exactly `C`, and returns true. -/
theorem createBackup_rollback_restores_commit (w : World)
    (hav : w.git.repo.available = true)
    (hclean : pyStrip w.git.repo.head = w.git.repo.head)
    (hmem : w.git.repo.head ∈ w.git.repo.commits)
    (hio : w.backupIOFails = false) :
    (create_backup w).1 = true ∧
    ((create_backup w).2).metadata =
      some { timestamp := w.now, commit := w.git.repo.head, backup_path := w.now } ∧
    (rollback (create_backup w).2).1 = true ∧
    ((rollback (create_backup w).2).2).git.repo.head = w.git.repo.head := by
  have hrev : runGit w.git.repo ["rev-parse", "HEAD"] =
      (true, w.git.repo.head, w.git.repo) := by
    unfold runGit
    rw [hav]
    rfl
  have hcb : create_backup w =
      (true,
        { w with
          git := ⟨w.git.repo, w.git.trace ++ [["rev-parse", "HEAD"]]⟩
          backups := w.now :: w.backups
          metadata := some
            { timestamp := w.now, commit := w.git.repo.head, backup_path := w.now } }) := by
    unfold create_backup get_current_commit run_git_command
    rw [hio, hrev]
    dsimp only
    rw [if_neg (by decide), hclean]
    rfl
  have hrg : runGit w.git.repo ["reset", "--hard", w.git.repo.head] =
      (if w.git.repo.head = "HEAD" then
        (true, "HEAD is now",
          { w.git.repo with worktree := w.git.repo.worktree.filter isUntrackedLine })
      else if w.git.repo.head ∈ w.git.repo.commits then
        (true, "HEAD is now",
          { w.git.repo with
            head := w.git.repo.head
            worktree := w.git.repo.worktree.filter isUntrackedLine })
      else (false, "unknown revision", w.git.repo)) := by
    unfold runGit
    rw [hav]
    rfl
  have hrg' : (runGit w.git.repo ["reset", "--hard", w.git.repo.head]).1 = true ∧
      ((runGit w.git.repo ["reset", "--hard", w.git.repo.head]).2.2).head =
        w.git.repo.head := by
    by_cases hH : w.git.repo.head = "HEAD"
    · rw [hrg, if_pos hH]
      exact ⟨rfl, rfl⟩
    · rw [hrg, if_neg hH, if_pos hmem]
      exact ⟨rfl, rfl⟩
  have hroll := rollback_success
    { w with
      git := ⟨w.git.repo, w.git.trace ++ [["rev-parse", "HEAD"]]⟩
      backups := w.now :: w.backups
      metadata := some
        { timestamp := w.now, commit := w.git.repo.head, backup_path := w.now } }
    { timestamp := w.now, commit := w.git.repo.head, backup_path := w.now }
    rfl (List.mem_cons_self _ _) hrg'.1
  rw [hcb]
  refine ⟨rfl, rfl, ?_, ?_⟩
  · show (rollback _).1 = true
    rw [hroll]
  · show ((rollback _).2).git.repo.head = w.git.repo.head
    rw [hroll]
    exact hrg'.2

/-- Witness for C1: in `wBase`, the backup records commit `"c1"` and the
rollback resets head to `"c1"` and succeeds. -/
theorem createBackup_rollback_restores_commit_witness :
    (create_backup wBase).1 = true ∧
    ((create_backup wBase).2).metadata =
      some { timestamp := "20260101_120000", commit := "c1",
             backup_path := "20260101_120000" } ∧
    (rollback (create_backup wBase).2).1 = true ∧
    ((rollback (create_backup wBase).2).2).git.repo.head = "c1" :=
  createBackup_rollback_restores_commit wBase (by decide) (by decide)
    (by decide) (by decide)

/-!
## C2 — automatic rollback and failure on pull failure
-/

/-- C2: in every `update` invocation that reaches the update step and in
which `_perform_update` returns false, `update` returns false and its
final state is exactly the state `_rollback` leaves behind — the
rollback is invoked automatically and the failure result does not depend
on whether the rollback itself succeeded. -/
theorem update_rollback_on_pull_failure (w : World) (force silent : Bool)
    (ui : UserInput)
    (h1 : (check_for_updates w.git).1.status ≠ UpdateStatus.up_to_date)
    (h2 : (handle_local_changes (check_for_updates w.git).2
            (check_for_updates w.git).1.local_changes force ui).1 = true)
    (h3 : ¬((check_for_updates w.git).1.deleted_files ≠ [] ∧ force = false ∧
            silent = false ∧ ui.proceedDeletion = false))
    (h4 : (perform_update (create_backup
            { w with git := (handle_local_changes (check_for_updates w.git).2
                (check_for_updates w.git).1.local_changes force ui).2 }).2).1 = false) :
    (update w force silent ui).1 = false ∧
    (update w force silent ui).2 = (rollback (perform_update (create_backup
      { w with git := (handle_local_changes (check_for_updates w.git).2
          (check_for_updates w.git).1.local_changes force ui).2 }).2).2).2 := by
  unfold update
  dsimp only
  rw [if_neg h1, if_neg (by rw [h2]; exact fun hc => nomatch hc), if_neg h3,
    if_pos h4]
  exact ⟨rfl, rfl⟩

/-- Witness for C2: in `wPullFail` the pull fails, `update` returns
false, its final state is the rollback's state — and here the rollback
itself failed (no metadata), yet `update` still reports failure. -/
theorem update_rollback_on_pull_failure_witness :
    (update wPullFail false false uiAccept).1 = false ∧
    (update wPullFail false false uiAccept).2 =
      (rollback (perform_update (create_backup
        { wPullFail with git := (handle_local_changes (check_for_updates wPullFail.git).2
            (check_for_updates wPullFail.git).1.local_changes false uiAccept).2 }).2).2).2 :=
  update_rollback_on_pull_failure wPullFail false false uiAccept
    (by decide) (by decide) (by decide) (by decide)

/-!
## Probe preservation lemmas (for C6)

`check_for_updates` only probes: it never changes the repository head,
working tree, stash, or history (its only repository-state effect is the
fetch's update of the remote-tracking ref, plus the command trace).
-/

/-- The repository-mutation-free relation between two git states: head,
working tree, stash and history coincide. -/
def probeKeeps (a b : GitState) : Prop :=
  b.head = a.head ∧ b.worktree = a.worktree ∧ b.stash = a.stash ∧
  b.commits = a.commits

theorem probeKeeps_trans {a b c : GitState} (h1 : probeKeeps a b)
    (h2 : probeKeeps b c) : probeKeeps a c :=
  ⟨h2.1.trans h1.1, h2.2.1.trans h1.2.1, h2.2.2.1.trans h1.2.2.1,
   h2.2.2.2.trans h1.2.2.2⟩

/-- Lift a per-arm preservation fact through the availability wrapper and
the trace wrapper. -/
theorem run_git_keeps (g : GitM) (args : List String)
    (h : ∀ av : GitState, probeKeeps av (runGitAvail av args).2.2) :
    probeKeeps g.repo ((run_git_command g args).2.2).repo := by
  unfold run_git_command runGit
  by_cases hav : g.repo.available = false
  · rw [if_pos hav]
    exact ⟨rfl, rfl, rfl, rfl⟩
  · rw [if_neg hav]
    exact h g.repo

theorem keeps_rev_parse (g : GitM) :
    probeKeeps g.repo ((run_git_command g ["rev-parse", "HEAD"]).2.2).repo :=
  run_git_keeps g _ (fun _ => ⟨rfl, rfl, rfl, rfl⟩)

theorem keeps_ls_remote (g : GitM) :
    probeKeeps g.repo ((run_git_command g ["ls-remote", "origin", "HEAD"]).2.2).repo := by
  refine run_git_keeps g _ (fun av => ?_)
  obtain ⟨c1, c2, c3, c4, c5, c6, c7, c8, c9, nok, c11, c12, c13⟩ := av
  cases nok <;> exact ⟨rfl, rfl, rfl, rfl⟩

theorem keeps_status (g : GitM) :
    probeKeeps g.repo ((run_git_command g ["status", "--porcelain"]).2.2).repo :=
  run_git_keeps g _ (fun _ => ⟨rfl, rfl, rfl, rfl⟩)

theorem keeps_fetch (g : GitM) :
    probeKeeps g.repo ((run_git_command g ["fetch", "origin"]).2.2).repo := by
  refine run_git_keeps g _ (fun av => ?_)
  obtain ⟨c1, c2, c3, c4, c5, c6, c7, c8, c9, nok, c11, c12, c13⟩ := av
  cases nok <;> exact ⟨rfl, rfl, rfl, rfl⟩

theorem keeps_rev_list (g : GitM) :
    probeKeeps g.repo
      ((run_git_command g ["rev-list", "--count", "HEAD..origin/main"]).2.2).repo :=
  run_git_keeps g _ (fun _ => ⟨rfl, rfl, rfl, rfl⟩)

theorem keeps_diff_changed (g : GitM) :
    probeKeeps g.repo
      ((run_git_command g ["diff", "--name-only", "HEAD", "origin/main"]).2.2).repo :=
  run_git_keeps g _ (fun _ => ⟨rfl, rfl, rfl, rfl⟩)

theorem keeps_diff_deleted (g : GitM) :
    probeKeeps g.repo ((run_git_command g
      ["diff", "--name-only", "--diff-filter=D", "HEAD", "origin/main"]).2.2).repo :=
  run_git_keeps g _ (fun _ => ⟨rfl, rfl, rfl, rfl⟩)

theorem keeps_describe_local (g : GitM) :
    probeKeeps g.repo
      ((run_git_command g ["describe", "--tags", "--abbrev=0"]).2.2).repo := by
  refine run_git_keeps g _ (fun av => ?_)
  obtain ⟨c1, c2, c3, c4, c5, c6, lt, c8, c9, c10, c11, c12, c13⟩ := av
  cases lt <;> exact ⟨rfl, rfl, rfl, rfl⟩

theorem keeps_describe_remote (g : GitM) :
    probeKeeps g.repo ((run_git_command g
      ["describe", "--tags", "--abbrev=0", "origin/main"]).2.2).repo := by
  refine run_git_keeps g _ (fun av => ?_)
  obtain ⟨c1, c2, c3, c4, c5, c6, c7, rt, c9, c10, c11, c12, c13⟩ := av
  cases rt <;> exact ⟨rfl, rfl, rfl, rfl⟩

theorem get_current_commit_keeps (g : GitM) :
    probeKeeps g.repo ((get_current_commit g).2).repo := by
  unfold get_current_commit
  exact keeps_rev_parse g

theorem get_remote_commit_keeps (g : GitM) :
    probeKeeps g.repo ((get_remote_commit g).2).repo := by
  unfold get_remote_commit
  exact keeps_ls_remote g

theorem get_local_changes_keeps (g : GitM) :
    probeKeeps g.repo ((get_local_changes g).2).repo := by
  unfold get_local_changes
  exact keeps_status g

theorem get_version_info_keeps (g : GitM) :
    probeKeeps g.repo ((get_version_info g).2).repo := by
  unfold get_version_info
  dsimp only
  by_cases h1 : (run_git_command g ["describe", "--tags", "--abbrev=0"]).1 = true
  · rw [if_pos h1]
    dsimp only
    by_cases h2 : (run_git_command
        (run_git_command g ["describe", "--tags", "--abbrev=0"]).2.2
        ["describe", "--tags", "--abbrev=0", "origin/main"]).1 = true
    · rw [if_pos h2]
      exact probeKeeps_trans (keeps_describe_local g) (keeps_describe_remote _)
    · rw [if_neg h2]
      exact probeKeeps_trans
        (probeKeeps_trans (keeps_describe_local g) (keeps_describe_remote _))
        (get_remote_commit_keeps _)
  · rw [if_neg h1]
    dsimp only
    by_cases h2 : (run_git_command
        (get_current_commit
          (run_git_command g ["describe", "--tags", "--abbrev=0"]).2.2).2
        ["describe", "--tags", "--abbrev=0", "origin/main"]).1 = true
    · rw [if_pos h2]
      exact probeKeeps_trans
        (probeKeeps_trans (keeps_describe_local g) (get_current_commit_keeps _))
        (keeps_describe_remote _)
    · rw [if_neg h2]
      exact probeKeeps_trans (probeKeeps_trans
          (probeKeeps_trans (keeps_describe_local g) (get_current_commit_keeps _))
          (keeps_describe_remote _))
        (get_remote_commit_keeps _)

theorem get_remote_changes_keeps (g : GitM) :
    probeKeeps g.repo ((get_remote_changes g).2).repo := by
  unfold get_remote_changes
  dsimp only
  split
  · exact probeKeeps_trans (keeps_fetch g) (keeps_rev_list _)
  · exact probeKeeps_trans (probeKeeps_trans
        (probeKeeps_trans (keeps_fetch g) (keeps_rev_list _))
        (keeps_diff_changed _))
      (keeps_diff_deleted _)

theorem check_for_updates_keeps (g : GitM) :
    probeKeeps g.repo ((check_for_updates g).2).repo := by
  unfold check_for_updates
  dsimp only
  exact probeKeeps_trans (probeKeeps_trans (probeKeeps_trans
      (probeKeeps_trans (get_current_commit_keeps g) (get_remote_commit_keeps _))
      (get_version_info_keeps _))
    (get_local_changes_keeps _))
    (get_remote_changes_keeps _)

theorem stashEffect_head (g : GitState) : (stashEffect g).head = g.head := by
  unfold stashEffect
  split <;> rfl

theorem stash_keeps_head (g : GitM) (label : String) :
    ((run_git_command g ["stash", "save", label]).2.2).repo.head = g.repo.head := by
  unfold run_git_command runGit
  by_cases hav : g.repo.available = false
  · rw [if_pos hav]
  · rw [if_neg hav]
    exact stashEffect_head g.repo

theorem clean_keeps_head (g : GitM) (p : String) :
    ((run_git_command g ["clean", "-fd", p]).2.2).repo.head = g.repo.head := by
  unfold run_git_command runGit
  by_cases hav : g.repo.available = false
  · rw [if_pos hav]
  · rw [if_neg hav]
    rfl

theorem resetHEAD_keeps_head (g : GitM) :
    ((run_git_command g ["reset", "--hard", "HEAD"]).2.2).repo.head = g.repo.head := by
  unfold run_git_command runGit
  by_cases hav : g.repo.available = false
  · rw [if_pos hav]
  · rw [if_neg hav]
    rfl

/-- `_handle_local_changes` never moves the repository head: its only
repository effects are a stash, or a reset to `HEAD` plus managed-path
cleans. -/
theorem handle_local_changes_keeps_head (g : GitM) (lc : List String)
    (force : Bool) (ui : UserInput) :
    ((handle_local_changes g lc force ui).2).repo.head = g.repo.head := by
  unfold handle_local_changes
  by_cases h1 : lc = []
  · rw [if_pos h1]
  · rw [if_neg h1]
    by_cases h2 : force = true
    · rw [if_pos h2]
    · rw [if_neg h2]
      by_cases h3 : ui.proceedResolve = false
      · rw [if_pos h3]
      · rw [if_neg h3]
        by_cases h4 : ui.choice = "stash"
        · rw [if_pos h4]
          exact stash_keeps_head g _
        · rw [if_neg h4]
          by_cases h5 : ui.choice = "commit"
          · rw [if_pos h5]
          · rw [if_neg h5]
            by_cases h6 : ui.choice = "discard"
            · rw [if_pos h6]
              dsimp only
              rw [MAESTRO_PATHS]
              rw [List.foldl_cons, List.foldl_cons, List.foldl_cons,
                List.foldl_cons, List.foldl_nil]
              rw [clean_keeps_head, clean_keeps_head, clean_keeps_head,
                clean_keeps_head, resetHEAD_keeps_head]
            · rw [if_neg h6]

/-!
## C6 — what a user-cancelled update leaves behind (corrected)
-/

/-- C6 counterexample: the operator resolves local changes by stashing
(which succeeds) and then declines the destructive-deletion
confirmation.  `update` returns false, but the invocation was not free
of side effects: the stash mutated the repository (working tree emptied,
stash stack grown). -/
theorem update_cancelled_side_effect_cex :
    (update wBase false false uiDeclineDeletion).1 = false ∧
    (update wBase false false uiDeclineDeletion).2.git.repo.stash ≠
      wBase.git.repo.stash ∧
    (update wBase false false uiDeclineDeletion).2.git.repo.worktree ≠
      wBase.git.repo.worktree := by decide

/-- C6 amended: a cancelled `update` returns false.  Cancelling at the
local-change resolution stage (declining to proceed, or choosing
`commit`) leaves every component of the state unchanged except the
probe's own effects (fetch of the remote-tracking ref and the command
trace): no backup, no metadata write, no consumer-directory change, no
notification, and no repository mutation (head, working tree and stash
unchanged).  Cancelling at the destructive-deletion confirmation
likewise creates no backup, writes no metadata, performs no pull (head
unchanged) and leaves the consumer directory and notification untouched —
but the local-change resolution already chosen (e.g. the stash) has
already mutated the repository. -/
theorem update_cancelled_effects (w : World) (force silent : Bool)
    (ui : UserInput)
    (hst : (check_for_updates w.git).1.status ≠ UpdateStatus.up_to_date)
    (hforce : force = false) :
    ((check_for_updates w.git).1.local_changes ≠ [] ∧
      (ui.proceedResolve = false ∨ ui.choice = "commit") →
      update w force silent ui =
        (false, { w with git := (check_for_updates w.git).2 }) ∧
      ((update w force silent ui).2).backups = w.backups ∧
      ((update w force silent ui).2).metadata = w.metadata ∧
      ((update w force silent ui).2).userFiles = w.userFiles ∧
      ((update w force silent ui).2).notificationWritten = w.notificationWritten ∧
      ((update w force silent ui).2).git.repo.head = w.git.repo.head ∧
      ((update w force silent ui).2).git.repo.worktree = w.git.repo.worktree ∧
      ((update w force silent ui).2).git.repo.stash = w.git.repo.stash) ∧
    ((handle_local_changes (check_for_updates w.git).2
        (check_for_updates w.git).1.local_changes force ui).1 = true ∧
      (check_for_updates w.git).1.deleted_files ≠ [] ∧ silent = false ∧
      ui.proceedDeletion = false →
      (update w force silent ui).1 = false ∧
      ((update w force silent ui).2).backups = w.backups ∧
      ((update w force silent ui).2).metadata = w.metadata ∧
      ((update w force silent ui).2).userFiles = w.userFiles ∧
      ((update w force silent ui).2).notificationWritten = w.notificationWritten ∧
      ((update w force silent ui).2).git.repo.head = w.git.repo.head) := by
  constructor
  · rintro ⟨hlc, hui⟩
    have hh : handle_local_changes (check_for_updates w.git).2
        (check_for_updates w.git).1.local_changes force ui =
        (false, (check_for_updates w.git).2) := by
      unfold handle_local_changes
      rw [if_neg hlc, hforce]
      rw [if_neg (by decide : ¬((false : Bool) = true))]
      rcases hui with hp | hc
      · rw [if_pos hp]
      · by_cases hp : ui.proceedResolve = false
        · rw [if_pos hp]
        · rw [if_neg hp, if_neg (by rw [hc]; decide), if_pos hc]
    have hupd : update w force silent ui =
        (false, { w with git := (check_for_updates w.git).2 }) := by
      unfold update
      dsimp only
      rw [if_neg hst, hh]
      dsimp only
      rw [if_pos rfl]
    refine ⟨hupd, ?_, ?_, ?_, ?_, ?_, ?_, ?_⟩ <;> rw [hupd]
    · exact (check_for_updates_keeps w.git).1
    · exact (check_for_updates_keeps w.git).2.1
    · exact (check_for_updates_keeps w.git).2.2.1
  · rintro ⟨hh1, hdel, hsil, hpd⟩
    have hupd : update w force silent ui =
        (false, { w with git := (handle_local_changes (check_for_updates w.git).2
          (check_for_updates w.git).1.local_changes force ui).2 }) := by
      unfold update
      dsimp only
      rw [if_neg hst, if_neg (by rw [hh1]; exact fun hc => nomatch hc),
        if_pos ⟨hdel, hforce, hsil, hpd⟩]
    refine ⟨?_, ?_, ?_, ?_, ?_, ?_⟩ <;> rw [hupd]
    · exact (handle_local_changes_keeps_head _ _ _ _).trans
        (check_for_updates_keeps w.git).1

/-- Witness for C6 (amended): both cancellation routes at concrete
inputs — declining the resolution prompt (no effects at all), and
declining the deletion confirmation after a successful stash (no backup,
no metadata, head unchanged). -/
theorem update_cancelled_effects_witness :
    ((update wBase false false uiDeclineResolve).1 = false ∧
      (update wBase false false uiDeclineResolve).2.backups = wBase.backups ∧
      (update wBase false false uiDeclineResolve).2.git.repo.worktree =
        wBase.git.repo.worktree) ∧
    ((update wBase false false uiDeclineDeletion).1 = false ∧
      (update wBase false false uiDeclineDeletion).2.metadata = wBase.metadata ∧
      (update wBase false false uiDeclineDeletion).2.git.repo.head =
        wBase.git.repo.head) := by
  constructor
  · have h := (update_cancelled_effects wBase false false uiDeclineResolve
      (by decide) rfl).1 ⟨by decide, Or.inl rfl⟩
    exact ⟨by rw [h.1], h.2.1, h.2.2.2.2.2.2.1⟩
  · have h := (update_cancelled_effects wBase false false uiDeclineDeletion
      (by decide) rfl).2 ⟨by decide, by decide, rfl, rfl⟩
    exact ⟨h.1, h.2.2.1, h.2.2.2.2.2⟩

/-!
## Mirror-sync lemmas (C7, C10)
-/

theorem applyWrites_cons (pc : String × String) (ws : List (String × String))
    (m : String → Option String) :
    applyWrites (pc :: ws) m = applyWrites ws (copyFileTo m pc.1 pc.2) := rfl

theorem applyWrites_append (a b : List (String × String))
    (m : String → Option String) :
    applyWrites (a ++ b) m = applyWrites b (applyWrites a m) :=
  List.foldl_append _ _ _ _

/-- The inner directory loop of `sync_all` counts and applies exactly the
writes of `dirWrites`. -/
theorem foldl_dirCopy (repo : List (String × String)) (d : String)
    (acc : Nat × (String → Option String)) :
    repo.foldl
      (fun (acc2 : Nat × (String → Option String)) pc =>
        if pyStartsWith pc.1 d then (acc2.1 + 1, copyFileTo acc2.2 pc.1 pc.2)
        else acc2) acc =
    (acc.1 + (dirWrites repo d).length, applyWrites (dirWrites repo d) acc.2) := by
  induction repo generalizing acc with
  | nil => simp [dirWrites, applyWrites]
  | cons pc rest ih =>
    rw [List.foldl_cons]
    by_cases hp : pyStartsWith pc.1 d = true
    · have hdw : dirWrites (pc :: rest) d = pc :: dirWrites rest d := by
        simp [dirWrites, List.filter_cons, hp]
      rw [if_pos hp, ih, hdw, List.length_cons, applyWrites_cons]
      exact congrArg₂ Prod.mk (by omega) rfl
    · have hdw : dirWrites (pc :: rest) d = dirWrites rest d := by
        simp [dirWrites, List.filter_cons, hp]
      rw [if_neg hp, ih, hdw]

/-- The outer directory loop of `sync_all` over any prefix list. -/
theorem foldl_dirs (dirs : List String) (repo : List (String × String))
    (acc : Nat × (String → Option String)) :
    dirs.foldl
      (fun (acc1 : Nat × (String → Option String)) d =>
        repo.foldl
          (fun (acc2 : Nat × (String → Option String)) pc =>
            if pyStartsWith pc.1 d then (acc2.1 + 1, copyFileTo acc2.2 pc.1 pc.2)
            else acc2) acc1) acc =
    (acc.1 + (dirs.flatMap (fun d => dirWrites repo d)).length,
     applyWrites (dirs.flatMap (fun d => dirWrites repo d)) acc.2) := by
  induction dirs generalizing acc with
  | nil => simp [applyWrites]
  | cons d rest ih =>
    rw [List.foldl_cons, foldl_dirCopy, ih, List.flatMap_cons]
    rw [List.length_append, applyWrites_append]
    exact congrArg₂ Prod.mk (by omega) rfl

/-- The individual-file loop of `sync_all` over any filename list. -/
theorem foldl_files (files : List String) (repo : List (String × String))
    (acc : Nat × (String → Option String)) :
    files.foldl
      (fun (acc2 : Nat × (String → Option String)) f =>
        match lookupFile repo f with
        | some c => (acc2.1 + 1, copyFileTo acc2.2 f c)
        | none => acc2) acc =
    (acc.1 + (files.filterMap
        (fun f => (lookupFile repo f).map (fun c => (f, c)))).length,
     applyWrites (files.filterMap
        (fun f => (lookupFile repo f).map (fun c => (f, c)))) acc.2) := by
  induction files generalizing acc with
  | nil => simp [applyWrites]
  | cons f rest ih =>
    rw [List.foldl_cons, List.filterMap_cons]
    cases hf : lookupFile repo f with
    | none =>
      simp only [Option.map_none']
      rw [ih]
    | some c =>
      simp only [Option.map_some']
      rw [ih, List.length_cons, applyWrites_cons]
      exact congrArg₂ Prod.mk (by omega) rfl

/-- `sync_all` equals applying the write list: the synced count is the
number of writes, the removed count is 0, and the consumer map is the
write list applied in order. -/
theorem sync_all_spec (repo : List (String × String))
    (m : String → Option String) :
    sync_all repo m =
      ((syncWrites repo).length, 0, applyWrites (syncWrites repo) m) := by
  unfold sync_all
  dsimp only
  rw [foldl_dirs, foldl_files]
  unfold syncWrites fileWrites
  rw [List.length_append, applyWrites_append]
  refine congrArg₂ Prod.mk (by omega) (congrArg₂ Prod.mk rfl rfl)

/-- A path no write touches keeps its previous contents. -/
theorem applyWrites_not_written (ws : List (String × String))
    (m : String → Option String) (q : String)
    (h : ∀ pc ∈ ws, pc.1 ≠ q) : applyWrites ws m q = m q := by
  induction ws generalizing m with
  | nil => rfl
  | cons pc rest ih =>
    rw [applyWrites_cons, ih _ (fun pc' h' => h pc' (List.mem_cons_of_mem _ h'))]
    unfold copyFileTo
    rw [if_neg (fun hq => h pc (List.mem_cons_self _ _) hq.symm)]

/-- The contents a written path receives do not depend on the previous
map. -/
theorem applyWrites_written_eq (ws : List (String × String)) (q : String)
    (h : ∃ pc ∈ ws, pc.1 = q) (m m' : String → Option String) :
    applyWrites ws m q = applyWrites ws m' q := by
  induction ws generalizing m m' with
  | nil =>
    rcases h with ⟨pc, hmem, _⟩
    exact absurd hmem (List.not_mem_nil pc)
  | cons pc rest ih =>
    by_cases hr : ∃ pc' ∈ rest, pc'.1 = q
    · rw [applyWrites_cons, applyWrites_cons]
      exact ih hr _ _
    · have hnw : ∀ pc' ∈ rest, pc'.1 ≠ q :=
        fun pc' h' hq => hr ⟨pc', h', hq⟩
      have hq : pc.1 = q := by
        rcases h with ⟨pc', hmem, hq'⟩
        rcases List.mem_cons.mp hmem with heq | hmm
        · rw [← heq]
          exact hq'
        · exact absurd ⟨pc', hmm, hq'⟩ hr
      rw [applyWrites_cons, applyWrites_cons,
        applyWrites_not_written _ _ _ hnw, applyWrites_not_written _ _ _ hnw]
      unfold copyFileTo
      rw [if_pos hq.symm, if_pos hq.symm]

/-- A written path ends up with some contents. -/
theorem applyWrites_written_isSome (ws : List (String × String)) (q : String)
    (h : ∃ pc ∈ ws, pc.1 = q) (m : String → Option String) :
    (applyWrites ws m q).isSome = true := by
  induction ws generalizing m with
  | nil =>
    rcases h with ⟨pc, hmem, _⟩
    exact absurd hmem (List.not_mem_nil pc)
  | cons pc rest ih =>
    by_cases hr : ∃ pc' ∈ rest, pc'.1 = q
    · rw [applyWrites_cons]
      exact ih hr _
    · have hnw : ∀ pc' ∈ rest, pc'.1 ≠ q :=
        fun pc' h' hq => hr ⟨pc', h', hq⟩
      have hq : pc.1 = q := by
        rcases h with ⟨pc', hmem, hq'⟩
        rcases List.mem_cons.mp hmem with heq | hmm
        · rw [← heq]
          exact hq'
        · exact absurd ⟨pc', hmm, hq'⟩ hr
      rw [applyWrites_cons, applyWrites_not_written _ _ _ hnw]
      unfold copyFileTo
      rw [if_pos hq.symm]
      rfl

/-!
## C7 — idempotence of `sync_all`
-/

/-- C7: running `sync_all` twice against the same repository yields the
same synced-file count both times, and the second run leaves the
consumer directory exactly as the first left it (the same map,
point for point). -/
theorem syncAll_idempotent (repo : List (String × String))
    (m : String → Option String) :
    (sync_all repo ((sync_all repo m).2.2)).1 = (sync_all repo m).1 ∧
    (sync_all repo ((sync_all repo m).2.2)).2.2 = (sync_all repo m).2.2 := by
  rw [sync_all_spec repo m, sync_all_spec]
  dsimp only
  refine ⟨rfl, ?_⟩
  funext q
  by_cases h : ∃ pc ∈ syncWrites repo, pc.1 = q
  · exact applyWrites_written_eq _ q h _ _
  · have hnw : ∀ pc ∈ syncWrites repo, pc.1 ≠ q :=
      fun pc h' hq => h ⟨pc, h', hq⟩
    rw [applyWrites_not_written _ _ _ hnw]

/-!
## C10 — `sync_all` never deletes, and reports 0 removals
-/

/-- C10: `sync_all` reports a removed-file count of exactly 0 to the
notification writer; every file already in the consumer directory is
still present afterwards (possibly overwritten); and every path is
either untouched or holds some freshly copied contents — nothing is
ever deleted. -/
theorem syncAll_never_deletes (repo : List (String × String))
    (m : String → Option String) :
    (sync_all repo m).2.1 = 0 ∧
    (∀ p v, m p = some v → (((sync_all repo m).2.2) p).isSome = true) ∧
    (∀ p, ((sync_all repo m).2.2) p = m p ∨
      (((sync_all repo m).2.2) p).isSome = true) := by
  rw [sync_all_spec]
  dsimp only
  refine ⟨rfl, ?_, ?_⟩
  · intro p v hv
    by_cases h : ∃ pc ∈ syncWrites repo, pc.1 = p
    · exact applyWrites_written_isSome _ p h m
    · have hnw : ∀ pc ∈ syncWrites repo, pc.1 ≠ p :=
        fun pc h' hq => h ⟨pc, h', hq⟩
      rw [applyWrites_not_written _ _ _ hnw, hv]
      rfl
  · intro p
    by_cases h : ∃ pc ∈ syncWrites repo, pc.1 = p
    · exact Or.inr (applyWrites_written_isSome _ p h m)
    · have hnw : ∀ pc ∈ syncWrites repo, pc.1 ≠ p :=
        fun pc h' hq => h ⟨pc, h', hq⟩
      exact Or.inl (applyWrites_not_written _ _ _ hnw)

/-- Witness for C10: syncing `repoW` into `consW` reports 0 removals and
keeps the pre-existing `user.txt`. -/
theorem syncAll_never_deletes_witness :
    (sync_all repoW consW).2.1 = 0 ∧
    (((sync_all repoW consW).2.2) "user.txt").isSome = true :=
  ⟨(syncAll_never_deletes repoW consW).1,
   (syncAll_never_deletes repoW consW).2.1 "user.txt" "user data" rfl⟩

end AutoUpdate
